import Mathlib

/-!
Shallow embedding of the app-review-agent pipeline (Python sources under
`src/`), covering the parts exercised by the claims: the smart-scrape cache
policy and review merge (`src/scraper.py`), the taxonomy store
(`src/utils/storage.py`), the confidence-gated topic mapper
(`src/agents/topic_mapper.py`), the consolidation / discovery state machine
(`src/agents/consolidator.py`) and the per-day orchestration loop (`main.py`).

Modelling conventions:
- Timestamps and dates are natural numbers at day granularity. Every
  comparison the embedded code performs on review timestamps goes through the
  date component (`.dt.date` / `.date()`), and `min`/`max` of timestamps have
  the min/max date, so this identification is faithful for all embedded
  branches; the fetch transport itself is an external oracle.
- Confidence scores are rationals (the code compares them with `<` against a
  constant threshold; no float rounding is involved in any claim).
- LLM calls are oracles passed in as function arguments. A `none` response
  models the client returning `None` after retries or on malformed JSON
  (`src/utils/groq_client.py` degrades every failure to `None`).
- Python dicts with optional keys become structures with `Option` fields;
  `dict.get(k, d)` becomes `Option.getD`. `Counter` / `defaultdict` iteration
  order is insertion order, modelled by association lists updated in place.
- Python string primitives (lower, strip, title, the slug regexes) are
  implemented over character lists at ASCII granularity, matching the Python
  code on the ASCII inputs the claims are about.
-/

namespace AppReview

/-! Constants from `config/settings.py`. -/

def TREND_WINDOW_DAYS : Nat := 1

def MIN_TOPIC_OCCURRENCES : Nat := 5

def CONFIDENCE_THRESHOLD : ℚ := 7/10

/-! Review records (`src/scraper.py` fetch loop, lines 97-107). `at` is the
timestamp at day granularity. -/

structure Review where
  reviewId : String
  userName : String
  score : Nat
  at_ts : Nat
  content : String
  thumbsUpCount : Nat
  appVersion : Option String
  replyContent : Option String
  repliedAt : Option Nat
deriving Repr, DecidableEq

/-- Date window from `src/utils/date_utils.py` `get_trend_date_range`:
`(target - TREND_WINDOW_DAYS, target)`. -/
def get_trend_date_range (target : Nat) : Nat × Nat :=
  (target - TREND_WINDOW_DAYS, target)

/-- Dates in the inclusive range `[s, e]` (`date_utils.date_range`). -/
def date_range (s e : Nat) : List Nat :=
  (List.range (e + 1 - s)).map (s + ·)

/-- `date_utils.get_date_strings_in_range`, at day granularity. -/
def get_date_strings_in_range (target : Nat) : List Nat :=
  date_range (target - TREND_WINDOW_DAYS) target

/-- `scraper.filter_by_date_range`: keep reviews whose date lies in
`[start_date, end_date]`, both inclusive. -/
def filter_by_date_range (df : List Review) (start_date end_date : Nat) : List Review :=
  df.filter (fun r => decide (start_date ≤ r.at_ts ∧ r.at_ts ≤ end_date))

/-- `scraper.get_reviews_for_date`: reviews whose date equals the given day. -/
def get_reviews_for_date (df : List Review) (d : Nat) : List Review :=
  df.filter (fun r => decide (r.at_ts = d))

/-- pandas drop_duplicates on the reviewId column with keep = last:
a row survives iff no later row carries the same `reviewId`. -/
def dropDupKeepLast : List Review → List Review
  | [] => []
  | r :: rest =>
      if rest.any (fun x => x.reviewId == r.reviewId) then dropDupKeepLast rest
      else r :: dropDupKeepLast rest

/-- Ordered insert for descending-by-timestamp sorting. -/
def insertDesc (r : Review) : List Review → List Review
  | [] => [r]
  | x :: xs => if r.at_ts ≤ x.at_ts then x :: insertDesc r xs else r :: x :: xs

/-- pandas sort_values on the at column with ascending = False: sort by
timestamp, newest first (tie order among equal timestamps is unspecified by
the pandas default quicksort; the claims only use sortedness and content). -/
def sortByAtDesc : List Review → List Review
  | [] => []
  | r :: rs => insertDesc r (sortByAtDesc rs)

/-- The merge of `smart_scrape` lines 232-238: concatenate, deduplicate by
`reviewId` keeping the last (incoming) copy, sort descending by timestamp. -/
def mergeReviews (existing incoming : List Review) : List Review :=
  sortByAtDesc (dropDupKeepLast (existing ++ incoming))

/-- Minimum timestamp of a non-empty review list (min of the at column). -/
def minAt : List Review → Nat
  | [] => 0
  | r :: rs => rs.foldl (fun m x => min m x.at_ts) r.at_ts

/-- Maximum timestamp (max of the at column). -/
def maxAt : List Review → Nat
  | [] => 0
  | r :: rs => rs.foldl (fun m x => max m x.at_ts) r.at_ts

/-- Result of one `smart_scrape` run: the returned rows, the review store
after the run (`None` = no CSV), and the fetch calls issued, each recorded as
`(reference_date, cutoff_date)` exactly as passed to
`fetch_reviews_by_date_range`. -/
structure ScrapeOutcome where
  result : List Review
  store : Option (List Review)
  fetch_calls : List (Nat × Nat)
deriving Repr, DecidableEq

/-- `scraper.smart_scrape`. `fetch reference cutoff` is the external fetch
oracle; `store` is the persisted CSV (`none` when absent). Case labels follow
the source: A (no CSV), empty CSV, B1 (full coverage), B2 (need newer),
B3 (need older), default. -/
def smart_scrape (fetch : Nat → Nat → List Review) (store : Option (List Review))
    (target : Nat) : ScrapeOutcome :=
  let start_date := (get_trend_date_range target).1
  let end_date := (get_trend_date_range target).2
  match store with
  | none =>
      let all_reviews := fetch end_date start_date
      ⟨all_reviews, some all_reviews, [(end_date, start_date)]⟩
  | some existing_df =>
      if existing_df.isEmpty then
        let all_reviews := fetch end_date start_date
        ⟨all_reviews, some all_reviews, [(end_date, start_date)]⟩
      else
        let csv_min_date := minAt existing_df
        let csv_max_date := maxAt existing_df
        if start_date ≥ csv_min_date ∧ end_date ≤ csv_max_date then
          ⟨filter_by_date_range existing_df start_date end_date, some existing_df, []⟩
        else if end_date > csv_max_date then
          let new_reviews := fetch end_date csv_max_date
          let combined := mergeReviews existing_df new_reviews
          ⟨filter_by_date_range combined start_date end_date, some combined,
            [(end_date, csv_max_date)]⟩
        else if start_date < csv_min_date then
          ⟨filter_by_date_range existing_df start_date end_date, some existing_df, []⟩
        else
          ⟨filter_by_date_range existing_df start_date end_date, some existing_df, []⟩

/-! Topic mapper (`src/agents/topic_mapper.py`). An oracle response is a
parsed JSON dict whose keys may be missing; `none` at the outer level is a
failed / malformed LLM call. -/

structure TopicMapping where
  extracted_topic : Option String := none
  mapped_topic_id : Option String := none
  confidence : Option ℚ := none
  reasoning : Option String := none
deriving Repr, DecidableEq

/-- `topic_mapper.map_single_topic`, lines 74-121. The oracle result is the
value of `groq_client.send_message_json`; the threshold gate reads
`result.get(confidence-key, 0.0)` and nulls `mapped_topic_id` below the
threshold. -/
def map_single_topic (extracted_topic : String) (oracle : Option TopicMapping) :
    TopicMapping :=
  match oracle with
  | none =>
      { extracted_topic := some extracted_topic
        mapped_topic_id := none
        confidence := some 0
        reasoning := some "Failed to get mapping from LLM" }
  | some result =>
      let confidence := result.confidence.getD 0
      { result with
        extracted_topic := some extracted_topic
        mapped_topic_id :=
          if confidence < CONFIDENCE_THRESHOLD then none else result.mapped_topic_id }

/-- `topic_mapper.map_topics_batch`, lines 124-188: empty input short-circuits;
a failed or non-list oracle response falls back to all-unmapped; otherwise the
threshold gate is applied to every returned entry in place. -/
def map_topics_batch (extracted_topics : List String)
    (oracle : Option (List TopicMapping)) : List TopicMapping :=
  if extracted_topics.isEmpty then []
  else
    match oracle with
    | none =>
        extracted_topics.map (fun t =>
          { extracted_topic := some t
            mapped_topic_id := none
            confidence := some 0
            reasoning := some "Batch mapping failed" })
    | some result =>
        result.map (fun r =>
          if r.confidence.getD 0 < CONFIDENCE_THRESHOLD then
            { r with mapped_topic_id := none }
          else r)

/-! Taxonomy store (`src/utils/storage.py`). -/

structure TopicDefinition where
  topic_id : String
  topic_name : String
  category : String
  variations : List String
  description : String
  added_date : Nat
  is_seed : Bool
  app_specific : Bool
deriving Repr, DecidableEq

structure Taxonomy where
  app_id : String
  topics : List TopicDefinition
  last_updated : Nat
deriving Repr, DecidableEq

/-- `storage.add_topics_to_taxonomy`, lines 143-161: the set of existing ids
is computed once up front; each candidate not in that set is appended; the
save refreshes `last_updated`. -/
def add_topics_to_taxonomy (now : Nat) (taxonomy : Taxonomy)
    (new_topics : List TopicDefinition) : Taxonomy :=
  let existing_ids := taxonomy.topics.map (·.topic_id)
  { taxonomy with
    topics := new_topics.foldl
      (fun acc topic => if topic.topic_id ∈ existing_ids then acc else acc ++ [topic])
      taxonomy.topics
    last_updated := now }

/-- The ids stored in a taxonomy, in order. -/
def taxonomyIds (taxonomy : Taxonomy) : List String :=
  taxonomy.topics.map (·.topic_id)

/-! Consolidator (`src/agents/consolidator.py`). String manipulation is done
at the character-list level (Python str semantics at ASCII granularity). -/

/-- Python str.lower: lowercase every character. -/
def strLower (s : String) : String := String.mk (s.data.map Char.toLower)

/-- Python str.strip: drop whitespace from both ends. -/
def strTrim (s : String) : String :=
  String.mk (((s.data.dropWhile Char.isWhitespace).reverse.dropWhile
    Char.isWhitespace).reverse)

/-- Split into maximal whitespace-free words (the effect of strip followed by
splitting on whitespace runs). `cur` is the current word, reversed. -/
def wordsAux : List Char → List Char → List (List Char)
  | [], cur => if cur.isEmpty then [] else [cur.reverse]
  | c :: cs, cur =>
      if c.isWhitespace then
        if cur.isEmpty then wordsAux cs [] else cur.reverse :: wordsAux cs []
      else wordsAux cs (c :: cur)

/-- Interleave single underscores between words. -/
def joinUnderscore : List (List Char) → List Char
  | [] => []
  | [w] => w
  | w :: ws => w ++ '_' :: joinUnderscore ws

/-- `consolidator.generate_topic_id`, lines 46-68: lowercase, delete every
character that is not an ASCII lowercase letter, digit or whitespace, strip
and collapse whitespace runs to single underscores, and when the result
exceeds 30 characters truncate to 30 and strip trailing underscores. -/
def generate_topic_id (topic_name : String) : String :=
  let lowered := topic_name.data.map Char.toLower
  let cleaned := lowered.filter (fun c => c.isLower || c.isDigit || c.isWhitespace)
  let joined := joinUnderscore (wordsAux cleaned [])
  if joined.length > 30 then
    String.mk (((joined.take 30).reverse.dropWhile (fun c => c == '_')).reverse)
  else String.mk joined

/-- Python str.title: uppercase each character that starts an alphabetic run,
lowercase the rest (used for the defaulted topic name). -/
def pyTitle (s : String) : String :=
  String.mk ((s.data.foldl
    (fun (acc : List Char × Bool) c =>
      if c.isAlpha then
        (acc.1 ++ [if acc.2 then c.toLower else c.toUpper], true)
      else (acc.1 ++ [c], false))
    ([], false)).1)

/-- One extraction result (`{reviewId, extractedTopics}`). -/
structure ExtractionResult where
  reviewId : String
  extractedTopics : List String
deriving Repr, DecidableEq

/-- Parsed validation oracle response. -/
structure ValidationResult where
  is_valid : Bool := false
  suggested_topic_id : Option String := none
  suggested_topic_name : Option String := none
  suggested_category : Option String := none
  reasoning : String := ""
deriving Repr, DecidableEq

/-- `consolidator.validate_new_topic`, lines 71-108: a failed LLM call is
degraded to an invalid verdict. -/
def validate_new_topic (oracle : String → Option ValidationResult)
    (topic : String) : ValidationResult :=
  match oracle topic with
  | none => { is_valid := false, reasoning := "Failed to validate with LLM" }
  | some result => result

/-- A Python `Counter` over strings: an association list in insertion order. -/
abbrev Counter := List (String × Nat)

/-- `counter[k] += 1`: bump in place, else append `(k, 1)`. -/
def counterIncr : Counter → String → Counter
  | [], k => [(k, 1)]
  | (k', v) :: rest, k =>
      if k' = k then (k', v + 1) :: rest else (k', v) :: counterIncr rest k

/-- `counter[k] = v`: overwrite in place, else append. -/
def counterSet : Counter → String → Nat → Counter
  | [], k, v => [(k, v)]
  | (k', v') :: rest, k, v =>
      if k' = k then (k', v) :: rest else (k', v') :: counterSet rest k v

/-- Dictionary lookup. -/
def counterLookup : Counter → String → Option Nat
  | [], _ => none
  | (k', v) :: rest, k => if k' = k then some v else counterLookup rest k

/-- `Counter(iterable)`: fold `counterIncr` over the elements. -/
def counterOf (l : List String) : Counter :=
  l.foldl counterIncr []

/-- A review entry attached to a topic bucket: the review (identified by its
id; the remaining dataframe columns are copied through untouched by the
consolidation logic), the raw extracted phrase, and the mapping confidence
(present only for mapped entries). -/
structure ReviewEntry where
  reviewId : String
  extracted_topic : String
  confidence : Option ℚ := none
deriving Repr, DecidableEq

/-- A `defaultdict(list)` keyed by strings, in insertion order. -/
abbrev Buckets := List (String × List ReviewEntry)

/-- `buckets[k].append(v)` under `defaultdict(list)` semantics. -/
def bucketAppend : Buckets → String → ReviewEntry → Buckets
  | [], k, v => [(k, [v])]
  | (k', vs) :: rest, k, v =>
      if k' = k then (k', vs ++ [v]) :: rest else (k', vs) :: bucketAppend rest k v

/-- `buckets[k] = vs`: overwrite in place, else append. -/
def bucketSet : Buckets → String → List ReviewEntry → Buckets
  | [], k, vs => [(k, vs)]
  | (k', vs') :: rest, k, vs =>
      if k' = k then (k', vs) :: rest else (k', vs') :: bucketSet rest k vs

/-- `buckets.get(k, [])`. -/
def bucketGet : Buckets → String → List ReviewEntry
  | [], _ => []
  | (k', vs) :: rest, k => if k' = k then vs else bucketGet rest k

/-- State built by the first loop of `consolidate_and_discover`
(lines 162-201). -/
structure ConsolidateState where
  topic_counts : Counter := []
  unmapped_topics : List String := []
  reviews_by_topic : Buckets := []
  reviews_with_no_topics : List String := []
  unmapped_reviews : Buckets := []
deriving Repr, DecidableEq

/-- Body of the inner per-phrase loop (lines 181-201). Python truthiness:
`if mapped_id` is taken only for a present, non-empty id. -/
def consolidatePhrase (mappings : String → Option TopicMapping)
    (review_id : String) (st : ConsolidateState) (topic : String) :
    ConsolidateState :=
  let topic_lower := strLower (strTrim topic)
  let mapping := mappings topic_lower
  let mapped_id := mapping.bind (·.mapped_topic_id)
  match mapped_id with
  | some mid =>
      if mid = "" then
        { st with
          unmapped_topics := st.unmapped_topics ++ [topic]
          unmapped_reviews :=
            bucketAppend st.unmapped_reviews topic_lower ⟨review_id, topic, none⟩ }
      else
        { st with
          topic_counts := counterIncr st.topic_counts mid
          reviews_by_topic :=
            bucketAppend st.reviews_by_topic mid
              ⟨review_id, topic, some ((mapping.bind (·.confidence)).getD 0)⟩ }
  | none =>
      { st with
        unmapped_topics := st.unmapped_topics ++ [topic]
        unmapped_reviews :=
          bucketAppend st.unmapped_reviews topic_lower ⟨review_id, topic, none⟩ }

/-- The first loop of `consolidate_and_discover` over the extraction
results (lines 171-201): reviews with no extracted topics are recorded
separately, all other phrases are counted as mapped or unmapped. -/
def consolidateLoop (mappings : String → Option TopicMapping)
    (extraction_results : List ExtractionResult) : ConsolidateState :=
  extraction_results.foldl
    (fun st er =>
      if er.extractedTopics.isEmpty then
        { st with reviews_with_no_topics := st.reviews_with_no_topics ++ [er.reviewId] }
      else
        er.extractedTopics.foldl (consolidatePhrase mappings er.reviewId) st)
    {}

/-- State of the promotion loop (lines 216-245), plus instrumentation: the
phrases for which a validation call was issued and the phrases actually
promoted. -/
structure PromotionState where
  topic_counts : Counter
  reviews_by_topic : Buckets
  topic_id_to_name : List (String × String)
  new_topics_to_add : List TopicDefinition := []
  validation_calls : List String := []
  promoted_phrases : List String := []
deriving Repr, DecidableEq

/-- Association-list overwrite for `topic_id_to_name`. -/
def nameSet : List (String × String) → String → String → List (String × String)
  | [], k, v => [(k, v)]
  | (k', v') :: rest, k, v =>
      if k' = k then (k', v) :: rest else (k', v') :: nameSet rest k v

/-- One iteration of the promotion loop (lines 216-245) on an entry of
`unmapped_counts`. Below the occurrence threshold nothing happens; at or
above it the validation oracle is called, and on a valid verdict the new
`TopicDefinition` is built (id from the suggestion or from
`generate_topic_id`), the accumulated count is assigned into `topic_counts`
(line 237) and the unmapped review list is assigned under the new id
(line 240). -/
def promoteStep (validate : String → Option ValidationResult) (date_str : Nat)
    (unmapped_reviews : Buckets) (ps : PromotionState) (entry : String × Nat) :
    PromotionState :=
  let topic := entry.1
  let count := entry.2
  if count ≥ MIN_TOPIC_OCCURRENCES then
    let validation := validate_new_topic validate topic
    let ps := { ps with validation_calls := ps.validation_calls ++ [topic] }
    if validation.is_valid then
      let new_topic : TopicDefinition :=
        { topic_id := validation.suggested_topic_id.getD (generate_topic_id topic)
          topic_name := validation.suggested_topic_name.getD (pyTitle topic)
          category := validation.suggested_category.getD "issue"
          variations := [topic]
          description := "Auto-discovered topic: " ++ topic
          added_date := date_str
          is_seed := false
          app_specific := true }
      { ps with
        new_topics_to_add := ps.new_topics_to_add ++ [new_topic]
        topic_counts := counterSet ps.topic_counts new_topic.topic_id count
        reviews_by_topic :=
          bucketSet ps.reviews_by_topic new_topic.topic_id
            (bucketGet unmapped_reviews topic)
        topic_id_to_name := nameSet ps.topic_id_to_name new_topic.topic_id
          new_topic.topic_name
        promoted_phrases := ps.promoted_phrases ++ [topic] }
    else ps
  else ps

/-- The per-day summary written by `save_batch` (lines 253-264;
`processed_at` is a wall-clock string and is omitted). -/
structure BatchData where
  app_id : String
  date : Nat
  total_reviews : Nat
  reviews_with_topics : Nat
  reviews_without_topics : Nat
  total_topic_mentions : Nat
  topic_frequencies : Counter
  new_topics_discovered : List String
  unmapped_count : Nat
deriving Repr, DecidableEq

/-- One entry of the detailed per-topic export (lines 287-292). -/
structure DetailedTopicEntry where
  topic_name : String
  count : Nat
  reviews : List ReviewEntry
deriving Repr, DecidableEq

/-- The detailed per-day export (lines 270-300), without the repeated
summary counters. -/
structure DetailedData where
  topics : List (String × DetailedTopicEntry)
  unmapped_topics : List (String × Nat × List ReviewEntry)
  reviews_without_extractable_topics : List String
deriving Repr, DecidableEq

/-- Everything a `consolidate_and_discover` run produces or observes: the
saved batch summary, the detailed export, the taxonomy after the optional
`add_topics_to_taxonomy` call, the intermediate `unmapped_counts`, and the
instrumented oracle activity. -/
structure ConsolidateOutput where
  batch : BatchData
  detailed : DetailedData
  taxonomy_after : Taxonomy
  unmapped_counts : Counter
  new_topics_to_add : List TopicDefinition
  validation_calls : List String
  promoted_phrases : List String
deriving Repr, DecidableEq

/-- The promotion loop of `consolidate_and_discover` (lines 209-245): fold
`promoteStep` over the entries of `unmapped_counts`, starting from the state
accumulated by the first loop. -/
def consolidatePromotion (validate : String → Option ValidationResult)
    (date_str : Nat) (taxonomy : Taxonomy) (st : ConsolidateState) : PromotionState :=
  (counterOf (st.unmapped_topics.map strLower)).foldl
    (promoteStep validate date_str st.unmapped_reviews)
    { topic_counts := st.topic_counts
      reviews_by_topic := st.reviews_by_topic
      topic_id_to_name := taxonomy.topics.map (fun t => (t.topic_id, t.topic_name)) }

/-- `consolidator.consolidate_and_discover`, lines 111-310. `mappings` is the
lookup produced by the topic mapper, `validate` the validation oracle, `now`
the wall clock used for the taxonomy save. -/
def consolidate_and_discover (validate : String → Option ValidationResult)
    (mappings : String → Option TopicMapping) (taxonomy : Taxonomy)
    (app_id : String) (date_str : Nat) (now : Nat)
    (extraction_results : List ExtractionResult) : ConsolidateOutput :=
  let st := consolidateLoop mappings extraction_results
  let unmapped_counts := counterOf (st.unmapped_topics.map strLower)
  let ps := consolidatePromotion validate date_str taxonomy st
  let taxonomy_after :=
    if ps.new_topics_to_add.isEmpty then taxonomy
    else add_topics_to_taxonomy now taxonomy ps.new_topics_to_add
  let batch : BatchData :=
    { app_id := app_id
      date := date_str
      total_reviews := extraction_results.length
      reviews_with_topics :=
        extraction_results.length - st.reviews_with_no_topics.length
      reviews_without_topics := st.reviews_with_no_topics.length
      total_topic_mentions := (ps.topic_counts.map (·.2)).sum
      topic_frequencies := ps.topic_counts
      new_topics_discovered := ps.new_topics_to_add.map (·.topic_id)
      unmapped_count :=
        (unmapped_counts.filter (fun e => decide (e.2 < MIN_TOPIC_OCCURRENCES))).length }
  let detailed : DetailedData :=
    { topics := ps.reviews_by_topic.map (fun e =>
        (e.1, { topic_name := ((ps.topic_id_to_name.find? (fun n => n.1 = e.1)).map (·.2)).getD e.1
                count := e.2.length
                reviews := e.2 }))
      unmapped_topics :=
        (st.unmapped_reviews.filter (fun e =>
            !(ps.new_topics_to_add.any (fun t => t.topic_id == generate_topic_id e.1)))).map
          (fun e => (e.1, e.2.length, e.2))
      reviews_without_extractable_topics := st.reviews_with_no_topics }
  { batch := batch
    detailed := detailed
    taxonomy_after := taxonomy_after
    unmapped_counts := unmapped_counts
    new_topics_to_add := ps.new_topics_to_add
    validation_calls := ps.validation_calls
    promoted_phrases := ps.promoted_phrases }

/-! Orchestration (`main.py`). -/

/-- What `process_single_day` hands back: either the literal zero-valued
dict built inline for an empty day (lines 94-100, carrying exactly
`app_id`, `date`, `total_reviews = 0`, empty `topic_frequencies` and empty
`new_topics_discovered`), or the full batch from the consolidator. -/
inductive DayBatch where
  | zero (app_id : String) (date : Nat)
  | full (batch : BatchData)
deriving Repr, DecidableEq

def DayBatch.total_reviews : DayBatch → Nat
  | .zero _ _ => 0
  | .full b => b.total_reviews

def DayBatch.topic_frequencies : DayBatch → Counter
  | .zero _ _ => []
  | .full b => b.topic_frequencies

def DayBatch.new_topics_discovered : DayBatch → List String
  | .zero _ _ => []
  | .full b => b.new_topics_discovered

/-- `main.process_single_day`, lines 70-121: the day slice of the review
frame is taken; an empty day short-circuits to the zero batch WITHOUT any
`save_batch` call; otherwise the three agents run and the consolidator
persists the batch. The second component records every `save_batch` call
made during the day, as `(app_id, date, data)`. `extract` abstracts
`extract_topics_for_reviews` and `mappings` the lookup built by
`map_topics_to_taxonomy`. -/
def process_single_day (extract : List Review → List ExtractionResult)
    (mappings : String → Option TopicMapping)
    (validate : String → Option ValidationResult)
    (taxonomy : Taxonomy) (now : Nat)
    (reviews_df : List Review) (date_str : Nat) (app_id : String) :
    DayBatch × List (String × Nat × BatchData) :=
  let day_reviews := get_reviews_for_date reviews_df date_str
  if day_reviews.isEmpty then
    (DayBatch.zero app_id date_str, [])
  else
    let extraction_results := extract day_reviews
    let out := consolidate_and_discover validate mappings taxonomy app_id date_str now
      extraction_results
    (DayBatch.full out.batch, [(app_id, date_str, out.batch)])

/-- The per-day loop of `main.orchestrate_analysis`, lines 164-167. The loop
body is not wrapped in any try/except, so a day whose processing raises makes
the exception propagate (through `orchestrate_analysis` to `main`, which
re-raises): the loop stops and no later date is processed. `process d`
returns `Except.error e` when processing day `d` raises exception `e`.
Returns the list of days actually processed and the escaped exception,
if any. -/
def run_day_loop (process : Nat → Except String Unit) :
    List Nat → List Nat × Option String
  | [] => ([], none)
  | d :: rest =>
      match process d with
      | .ok _ =>
          let tail := run_day_loop process rest
          (d :: tail.1, tail.2)
      | .error e => ([], some e)

/-- Steps 4 of `orchestrate_analysis`: iterate the per-day loop over the
window dates of the target. -/
def orchestrate_day_loop (process : Nat → Except String Unit) (target : Nat) :
    List Nat × Option String :=
  run_day_loop process (get_date_strings_in_range target)

/-! Basic facts about the counter association lists. -/

/-- The keys of a counter, in order. -/
def counterKeys (c : Counter) : List String := c.map (fun e => e.1)

theorem counterKeys_nil : counterKeys [] = [] := rfl

theorem counterKeys_cons (e : String × Nat) (c : Counter) :
    counterKeys (e :: c) = e.1 :: counterKeys c := rfl

theorem counterLookup_counterIncr (c : Counter) (k q : String) :
    counterLookup (counterIncr c k) q =
      if q = k then some ((counterLookup c k).getD 0 + 1) else counterLookup c q := by
  induction c with
  | nil =>
      by_cases h : q = k
      · subst h; simp [counterIncr, counterLookup]
      · have h2 : ¬ k = q := fun hh => h hh.symm
        simp [counterIncr, counterLookup, h, h2]
  | cons e rest ih =>
      obtain ⟨ek, ev⟩ := e
      by_cases hek : ek = k
      · subst hek
        by_cases hq : ek = q
        · subst hq
          simp [counterIncr, counterLookup]
        · have hqk : ¬ q = ek := fun hh => hq hh.symm
          simp [counterIncr, counterLookup, hq, hqk]
      · by_cases hq : ek = q
        · subst hq
          have hqk : ¬ ek = k := hek
          simp [counterIncr, counterLookup, hek, hqk]
        · simp [counterIncr, counterLookup, hek, hq, ih]

theorem counterLookup_foldl_counterIncr (l : List String) (c : Counter) (k : String) :
    counterLookup (l.foldl counterIncr c) k =
      match counterLookup c k with
      | some v => some (v + l.count k)
      | none => if k ∈ l then some (l.count k) else none := by
  induction l generalizing c with
  | nil => cases h : counterLookup c k <;> simp [h]
  | cons a t ih =>
      simp only [List.foldl_cons]
      rw [ih, counterLookup_counterIncr]
      by_cases hka : k = a
      · subst hka
        cases h : counterLookup c k <;>
          simp [h, List.count_cons] <;> omega
      · have hak : ¬ (k == a) = true := by simpa using hka
        cases h : counterLookup c k <;>
          simp [h, hka, List.count_cons, hak, List.mem_cons]

theorem counterLookup_counterOf (l : List String) (k : String) :
    counterLookup (counterOf l) k = if k ∈ l then some (l.count k) else none := by
  unfold counterOf
  rw [counterLookup_foldl_counterIncr]
  simp [counterLookup]

theorem mem_counterKeys_counterIncr (c : Counter) (k q : String) :
    q ∈ counterKeys (counterIncr c k) ↔ q ∈ counterKeys c ∨ q = k := by
  induction c with
  | nil => simp [counterIncr, counterKeys]
  | cons e rest ih =>
      obtain ⟨ek, ev⟩ := e
      by_cases hek : ek = k <;>
        simp [counterIncr, counterKeys_cons, hek, List.mem_cons] at ih ⊢ <;> tauto

theorem nodup_counterKeys_counterIncr (c : Counter) (k : String)
    (h : (counterKeys c).Nodup) : (counterKeys (counterIncr c k)).Nodup := by
  induction c with
  | nil => simp [counterIncr, counterKeys]
  | cons e rest ih =>
      obtain ⟨ek, ev⟩ := e
      rw [counterKeys_cons, List.nodup_cons] at h
      by_cases hek : ek = k
      · subst hek
        rw [counterIncr, if_pos rfl, counterKeys_cons, List.nodup_cons]
        exact ⟨h.1, h.2⟩
      · rw [counterIncr, if_neg hek, counterKeys_cons, List.nodup_cons]
        refine ⟨fun hmem => ?_, ih h.2⟩
        rcases (mem_counterKeys_counterIncr rest k ek).1 hmem with h1 | h1
        · exact h.1 h1
        · exact hek h1

theorem mem_counterKeys_foldl (l : List String) (c : Counter) (q : String) :
    q ∈ counterKeys (l.foldl counterIncr c) ↔ q ∈ counterKeys c ∨ q ∈ l := by
  induction l generalizing c with
  | nil => simp
  | cons a t ih =>
      simp only [List.foldl_cons]
      rw [ih, mem_counterKeys_counterIncr]
      simp only [List.mem_cons]
      tauto

theorem nodup_counterKeys_foldl (l : List String) (c : Counter)
    (h : (counterKeys c).Nodup) : (counterKeys (l.foldl counterIncr c)).Nodup := by
  induction l generalizing c with
  | nil => simpa
  | cons a t ih =>
      simp only [List.foldl_cons]
      exact ih _ (nodup_counterKeys_counterIncr c a h)

theorem nodup_counterKeys_counterOf (l : List String) :
    (counterKeys (counterOf l)).Nodup :=
  nodup_counterKeys_foldl l [] (by simp [counterKeys])

theorem mem_counterKeys_counterOf (l : List String) (q : String) :
    q ∈ counterKeys (counterOf l) ↔ q ∈ l := by
  unfold counterOf
  rw [mem_counterKeys_foldl]
  simp [counterKeys]

theorem counterLookup_eq_of_mem (c : Counter) (k : String) (v : Nat)
    (hnd : (counterKeys c).Nodup) (hm : (k, v) ∈ c) :
    counterLookup c k = some v := by
  induction c with
  | nil => simp at hm
  | cons e rest ih =>
      obtain ⟨ek, ev⟩ := e
      rw [counterKeys_cons, List.nodup_cons] at hnd
      rcases List.mem_cons.1 hm with h | h
      · rw [Prod.mk.injEq] at h
        obtain ⟨h1, h2⟩ := h
        subst h1; subst h2
        simp [counterLookup]
      · have hkr : k ∈ counterKeys rest := by
          simp only [counterKeys, List.mem_map]
          exact ⟨(k, v), h, rfl⟩
        have hne : ¬ ek = k := fun he => hnd.1 (by rw [he]; exact hkr)
        simp only [counterLookup, if_neg hne]
        exact ih hnd.2 h

theorem counterOf_value_eq_count (l : List String) (k : String) (v : Nat)
    (hm : (k, v) ∈ counterOf l) : v = l.count k := by
  have h1 := counterLookup_eq_of_mem _ _ _ (nodup_counterKeys_counterOf l) hm
  have hk : k ∈ l := by
    rw [← mem_counterKeys_counterOf l k]
    simp only [counterKeys, List.mem_map]
    exact ⟨(k, v), hm, rfl⟩
  rw [counterLookup_counterOf, if_pos hk] at h1
  exact (Option.some_inj.1 h1).symm

theorem counterLookup_counterSet_self (c : Counter) (k : String) (v : Nat) :
    counterLookup (counterSet c k v) k = some v := by
  induction c with
  | nil => simp [counterSet, counterLookup]
  | cons e rest ih =>
      obtain ⟨ek, ev⟩ := e
      by_cases hek : ek = k <;> simp [counterSet, counterLookup, hek, ih]

theorem bucketGet_bucketSet_self (b : Buckets) (k : String) (vs : List ReviewEntry) :
    bucketGet (bucketSet b k vs) k = vs := by
  induction b with
  | nil => simp [bucketSet, bucketGet]
  | cons e rest ih =>
      obtain ⟨ek, evs⟩ := e
      by_cases hek : ek = k <;> simp [bucketSet, bucketGet, hek, ih]

/-! Facts about the promotion loop. -/

theorem promoteStep_validation_calls (validate : String → Option ValidationResult)
    (date_str : Nat) (ur : Buckets) (ps : PromotionState) (e : String × Nat) :
    (promoteStep validate date_str ur ps e).validation_calls =
      ps.validation_calls ++
        (if MIN_TOPIC_OCCURRENCES ≤ e.2 then [e.1] else []) := by
  by_cases h : MIN_TOPIC_OCCURRENCES ≤ e.2
  · by_cases hv : (validate_new_topic validate e.1).is_valid <;>
      simp [promoteStep, h, hv]
  · simp [promoteStep, h]

theorem promoteStep_promoted_phrases (validate : String → Option ValidationResult)
    (date_str : Nat) (ur : Buckets) (ps : PromotionState) (e : String × Nat) :
    (promoteStep validate date_str ur ps e).promoted_phrases =
      ps.promoted_phrases ++
        (if MIN_TOPIC_OCCURRENCES ≤ e.2 ∧ (validate_new_topic validate e.1).is_valid
         then [e.1] else []) := by
  by_cases h : MIN_TOPIC_OCCURRENCES ≤ e.2
  · by_cases hv : (validate_new_topic validate e.1).is_valid <;>
      simp [promoteStep, h, hv]
  · simp [promoteStep, h]

theorem foldl_promoteStep_validation_calls (validate : String → Option ValidationResult)
    (date_str : Nat) (ur : Buckets) (l : List (String × Nat)) (ps : PromotionState) :
    (l.foldl (promoteStep validate date_str ur) ps).validation_calls =
      ps.validation_calls ++
        (l.filter (fun e => decide (MIN_TOPIC_OCCURRENCES ≤ e.2))).map (fun e => e.1) := by
  induction l generalizing ps with
  | nil => simp
  | cons e t ih =>
      simp only [List.foldl_cons]
      rw [ih, promoteStep_validation_calls]
      by_cases h : MIN_TOPIC_OCCURRENCES ≤ e.2 <;>
        simp [h, List.filter_cons]

theorem foldl_promoteStep_promoted_phrases (validate : String → Option ValidationResult)
    (date_str : Nat) (ur : Buckets) (l : List (String × Nat)) (ps : PromotionState) :
    (l.foldl (promoteStep validate date_str ur) ps).promoted_phrases =
      ps.promoted_phrases ++
        (l.filter (fun e =>
          decide (MIN_TOPIC_OCCURRENCES ≤ e.2) &&
            (validate_new_topic validate e.1).is_valid)).map (fun e => e.1) := by
  induction l generalizing ps with
  | nil => simp
  | cons e t ih =>
      simp only [List.foldl_cons]
      rw [ih, promoteStep_promoted_phrases]
      by_cases h : MIN_TOPIC_OCCURRENCES ≤ e.2 <;>
        by_cases hv : (validate_new_topic validate e.1).is_valid <;>
          simp [h, hv, List.filter_cons]

/-! Facts about the merge: sorting and last-wins deduplication. -/

/-- The review ids of a list, in order. -/
def reviewIds (l : List Review) : List String := l.map (fun r => r.reviewId)

theorem dropDupKeepLast_cons_pos (r : Review) (rest : List Review)
    (h : rest.any (fun x => x.reviewId == r.reviewId) = true) :
    dropDupKeepLast (r :: rest) = dropDupKeepLast rest := by
  rw [dropDupKeepLast, h]
  simp

theorem dropDupKeepLast_cons_neg (r : Review) (rest : List Review)
    (h : rest.any (fun x => x.reviewId == r.reviewId) = false) :
    dropDupKeepLast (r :: rest) = r :: dropDupKeepLast rest := by
  rw [dropDupKeepLast, h]
  simp

theorem perm_insertDesc (r : Review) (l : List Review) :
    List.Perm (insertDesc r l) (r :: l) := by
  induction l with
  | nil => simp [insertDesc]
  | cons x xs ih =>
      by_cases h : r.at_ts <= x.at_ts
      . simp only [insertDesc, if_pos h]
        exact (ih.cons x).trans (List.Perm.swap r x xs)
      . simp [insertDesc, if_neg h]

theorem perm_sortByAtDesc (l : List Review) :
    List.Perm (sortByAtDesc l) l := by
  induction l with
  | nil => simp [sortByAtDesc]
  | cons r rs ih =>
      exact (perm_insertDesc r (sortByAtDesc rs)).trans (ih.cons r)

theorem mem_sortByAtDesc (r : Review) (l : List Review) :
    r ∈ sortByAtDesc l ↔ r ∈ l :=
  (perm_sortByAtDesc l).mem_iff

theorem pairwise_insertDesc (r : Review) (l : List Review)
    (h : l.Pairwise (fun a b => b.at_ts <= a.at_ts)) :
    (insertDesc r l).Pairwise (fun a b => b.at_ts <= a.at_ts) := by
  induction l with
  | nil => simp [insertDesc]
  | cons x xs ih =>
      rw [List.pairwise_cons] at h
      by_cases hle : r.at_ts <= x.at_ts
      . rw [insertDesc, if_pos hle, List.pairwise_cons]
        refine ⟨fun b hb => ?_, ih h.2⟩
        rcases List.mem_cons.1 ((perm_insertDesc r xs).mem_iff.1 hb) with hb | hb
        . exact hb ▸ hle
        . exact h.1 b hb
      . rw [insertDesc, if_neg hle, List.pairwise_cons]
        push_neg at hle
        refine ⟨fun b hb => ?_, List.pairwise_cons.2 h⟩
        rcases List.mem_cons.1 hb with hb | hb
        . exact hb ▸ le_of_lt hle
        . exact le_trans (h.1 b hb) (le_of_lt hle)

theorem pairwise_sortByAtDesc (l : List Review) :
    (sortByAtDesc l).Pairwise (fun a b => b.at_ts <= a.at_ts) := by
  induction l with
  | nil => simp [sortByAtDesc]
  | cons r rs ih => exact pairwise_insertDesc r (sortByAtDesc rs) ih

theorem dropDupKeepLast_of_nodup (l : List Review)
    (h : (reviewIds l).Nodup) : dropDupKeepLast l = l := by
  induction l with
  | nil => rfl
  | cons r rest ih =>
      rw [reviewIds, List.map_cons, List.nodup_cons] at h
      have hany : rest.any (fun x => x.reviewId == r.reviewId) = false := by
        rw [List.any_eq_false]
        intro x hx
        simp only [beq_iff_eq]
        intro he
        exact h.1 (he ▸ List.mem_map_of_mem (fun q => q.reviewId) hx)
      rw [dropDupKeepLast_cons_neg r rest hany, ih h.2]

theorem dropDupKeepLast_append_of_covered (e i : List Review)
    (h : ∀ r ∈ e, r.reviewId ∈ reviewIds i) :
    dropDupKeepLast (e ++ i) = dropDupKeepLast i := by
  induction e with
  | nil => rfl
  | cons x e2 ih =>
      have hx : x.reviewId ∈ reviewIds i := h x (List.mem_cons_self x e2)
      have hany : (e2 ++ i).any (fun q => q.reviewId == x.reviewId) = true := by
        rw [List.any_eq_true]
        rw [reviewIds, List.mem_map] at hx
        obtain ⟨q, hq, hqe⟩ := hx
        exact ⟨q, List.mem_append_right _ hq, by simp [hqe]⟩
      rw [List.cons_append, dropDupKeepLast_cons_pos x _ hany]
      exact ih (fun r hr => h r (List.mem_cons_of_mem x hr))

theorem mem_dropDupKeepLast_append (e i : List Review) (r : Review)
    (he : (reviewIds e).Nodup) (hi : (reviewIds i).Nodup) :
    r ∈ dropDupKeepLast (e ++ i) ↔
      r ∈ i ∨ (r ∈ e ∧ r.reviewId ∉ reviewIds i) := by
  induction e with
  | nil =>
      rw [List.nil_append, dropDupKeepLast_of_nodup i hi]
      simp
  | cons x e2 ih =>
      rw [reviewIds, List.map_cons, List.nodup_cons] at he
      have hcond : ((e2 ++ i).any (fun q => q.reviewId == x.reviewId) = true) ↔
          x.reviewId ∈ reviewIds i := by
        rw [List.any_eq_true]
        constructor
        . rintro ⟨q, hq, hqe⟩
          rw [beq_iff_eq] at hqe
          rcases List.mem_append.1 hq with hq | hq
          . exact absurd (hqe ▸ List.mem_map_of_mem (fun z => z.reviewId) hq) he.1
          . exact hqe ▸ List.mem_map_of_mem (fun z => z.reviewId) hq
        . intro hx
          rw [reviewIds, List.mem_map] at hx
          obtain ⟨q, hq, hqe⟩ := hx
          exact ⟨q, List.mem_append_right _ hq, by simp [hqe]⟩
      by_cases hx : x.reviewId ∈ reviewIds i
      . rw [List.cons_append, dropDupKeepLast_cons_pos x _ (hcond.2 hx), ih he.2]
        constructor
        . rintro (h1 | ⟨h1, h2⟩)
          . exact Or.inl h1
          . exact Or.inr ⟨List.mem_cons_of_mem x h1, h2⟩
        . rintro (h1 | ⟨h1, h2⟩)
          . exact Or.inl h1
          . rcases List.mem_cons.1 h1 with h1 | h1
            . exact absurd (h1 ▸ hx) h2
            . exact Or.inr ⟨h1, h2⟩
      . have hanyf : ((e2 ++ i).any (fun q => q.reviewId == x.reviewId)) = false :=
          Bool.eq_false_iff.2 (fun hh => hx (hcond.1 hh))
        rw [List.cons_append, dropDupKeepLast_cons_neg x _ hanyf, List.mem_cons, ih he.2]
        constructor
        . rintro (h1 | h1 | ⟨h1, h2⟩)
          . exact Or.inr ⟨h1 ▸ List.mem_cons_self x e2, h1 ▸ hx⟩
          . exact Or.inl h1
          . exact Or.inr ⟨List.mem_cons_of_mem x h1, h2⟩
        . rintro (h1 | ⟨h1, h2⟩)
          . exact Or.inr (Or.inl h1)
          . rcases List.mem_cons.1 h1 with h1 | h1
            . exact Or.inl h1
            . exact Or.inr (Or.inr ⟨h1, h2⟩)

/-! Projection bridges for `consolidate_and_discover`. -/

theorem consolidate_validation_calls_def (validate : String → Option ValidationResult)
    (mappings : String → Option TopicMapping) (taxonomy : Taxonomy)
    (app_id : String) (date_str now : Nat) (ers : List ExtractionResult) :
    (consolidate_and_discover validate mappings taxonomy app_id date_str now ers).validation_calls =
      (consolidatePromotion validate date_str taxonomy (consolidateLoop mappings ers)).validation_calls :=
  rfl

theorem consolidate_promoted_phrases_def (validate : String → Option ValidationResult)
    (mappings : String → Option TopicMapping) (taxonomy : Taxonomy)
    (app_id : String) (date_str now : Nat) (ers : List ExtractionResult) :
    (consolidate_and_discover validate mappings taxonomy app_id date_str now ers).promoted_phrases =
      (consolidatePromotion validate date_str taxonomy (consolidateLoop mappings ers)).promoted_phrases :=
  rfl

theorem consolidate_unmapped_counts_def (validate : String → Option ValidationResult)
    (mappings : String → Option TopicMapping) (taxonomy : Taxonomy)
    (app_id : String) (date_str now : Nat) (ers : List ExtractionResult) :
    (consolidate_and_discover validate mappings taxonomy app_id date_str now ers).unmapped_counts =
      counterOf ((consolidateLoop mappings ers).unmapped_topics.map strLower) :=
  rfl

theorem consolidate_unmapped_count_def (validate : String → Option ValidationResult)
    (mappings : String → Option TopicMapping) (taxonomy : Taxonomy)
    (app_id : String) (date_str now : Nat) (ers : List ExtractionResult) :
    (consolidate_and_discover validate mappings taxonomy app_id date_str now ers).batch.unmapped_count =
      ((counterOf ((consolidateLoop mappings ers).unmapped_topics.map strLower)).filter
        (fun e => decide (e.2 < MIN_TOPIC_OCCURRENCES))).length :=
  rfl

theorem consolidate_new_topics_def (validate : String → Option ValidationResult)
    (mappings : String → Option TopicMapping) (taxonomy : Taxonomy)
    (app_id : String) (date_str now : Nat) (ers : List ExtractionResult) :
    (consolidate_and_discover validate mappings taxonomy app_id date_str now ers).new_topics_to_add =
      (consolidatePromotion validate date_str taxonomy (consolidateLoop mappings ers)).new_topics_to_add :=
  rfl

theorem consolidate_detailed_unmapped_def (validate : String → Option ValidationResult)
    (mappings : String → Option TopicMapping) (taxonomy : Taxonomy)
    (app_id : String) (date_str now : Nat) (ers : List ExtractionResult) :
    (consolidate_and_discover validate mappings taxonomy app_id date_str now ers).detailed.unmapped_topics =
      (((consolidateLoop mappings ers).unmapped_reviews.filter (fun e =>
          !((consolidatePromotion validate date_str taxonomy (consolidateLoop mappings ers)).new_topics_to_add.any
            (fun t => t.topic_id == generate_topic_id e.1)))).map
        (fun e => (e.1, e.2.length, e.2))) :=
  rfl

/-! Claim theorems. -/

/-- C1: for every mapping result produced by the topic mapper, single
(`map_single_topic`) or batch (`map_topics_batch`), if the result carries a
confidence below the 0.70 threshold (an absent confidence reads as 0), then
its `mapped_topic_id` is `none` in the mapping handed to the Consolidator,
regardless of the id the oracle returned. -/
theorem C1_confidence_gating (t : String) (oracle1 : Option TopicMapping)
    (ts : List String) (oracle2 : Option (List TopicMapping)) :
    ((map_single_topic t oracle1).confidence.getD 0 < CONFIDENCE_THRESHOLD →
      (map_single_topic t oracle1).mapped_topic_id = none) ∧
    (∀ m ∈ map_topics_batch ts oracle2,
      m.confidence.getD 0 < CONFIDENCE_THRESHOLD → m.mapped_topic_id = none) := by
  constructor
  · intro h
    match oracle1 with
    | none => rfl
    | some result =>
        simp only [map_single_topic] at h ⊢
        rw [if_pos h]
  · intro m hm h
    rw [map_topics_batch.eq_def] at hm
    split at hm
    · simp at hm
    · split at hm
      · rw [List.mem_map] at hm
        obtain ⟨x, _, hx⟩ := hm
        rw [← hx]
      · rw [List.mem_map] at hm
        obtain ⟨r, _, hr⟩ := hm
        by_cases hc : r.confidence.getD 0 < CONFIDENCE_THRESHOLD
        · rw [← hr, if_pos hc]
        · rw [← hr, if_neg hc] at h ⊢
          exact absurd h hc

/-- C1 witness: a concrete oracle response with confidence 1/2 and a non-null
id is gated to a null id. -/
theorem C1_confidence_gating_witness :
    (map_single_topic "slow app"
      (some { mapped_topic_id := some "app_crash", confidence := some (1/2),
              reasoning := some "looks close" })).mapped_topic_id = none :=
  (C1_confidence_gating "slow app"
    (some { mapped_topic_id := some "app_crash", confidence := some (1/2),
            reasoning := some "looks close" }) [] none).1
    (by simp [map_single_topic, CONFIDENCE_THRESHOLD]; norm_num)

/-- A helper for C2: folding the conditional append of
`add_topics_to_taxonomy` equals appending the candidates whose id is not in
the pre-computed id set. -/
theorem foldl_add_topics (ids : List String) (init cands : List TopicDefinition) :
    cands.foldl (fun acc topic => if topic.topic_id ∈ ids then acc else acc ++ [topic]) init =
      init ++ cands.filter (fun t => decide (t.topic_id ∉ ids)) := by
  induction cands generalizing init with
  | nil => simp
  | cons c cs ih =>
      by_cases h : c.topic_id ∈ ids <;>
        simp [h, ih, List.filter_cons]

/-- C2 (amended): `add_topics_to_taxonomy` appends exactly the candidates
whose `topic_id` is missing from the stored taxonomy (so a candidate whose id
already exists is skipped and an all-duplicate call leaves stored content
unchanged), and the stored ids stay pairwise distinct provided the candidate
sequence itself carries pairwise distinct ids. (Without that proviso the
claim fails: the existing-id set is computed once before the loop, see the
counterexample.) -/
theorem C2_addTopics_idempotent (now : Nat) (tax : Taxonomy)
    (cands : List TopicDefinition) :
    ((add_topics_to_taxonomy now tax cands).topics =
        tax.topics ++ cands.filter (fun t => decide (t.topic_id ∉ taxonomyIds tax))) ∧
    ((∀ t ∈ cands, t.topic_id ∈ taxonomyIds tax) →
        (add_topics_to_taxonomy now tax cands).topics = tax.topics) ∧
    ((taxonomyIds tax).Nodup → (cands.map (fun t => t.topic_id)).Nodup →
        (taxonomyIds (add_topics_to_taxonomy now tax cands)).Nodup) := by
  have hbase : (add_topics_to_taxonomy now tax cands).topics =
      tax.topics ++ cands.filter (fun t => decide (t.topic_id ∉ taxonomyIds tax)) := by
    rw [add_topics_to_taxonomy]
    exact foldl_add_topics (taxonomyIds tax) tax.topics cands
  refine ⟨hbase, fun hall => ?_, fun hnd hcand => ?_⟩
  · rw [hbase]
    have : cands.filter (fun t => decide (t.topic_id ∉ taxonomyIds tax)) = [] := by
      rw [List.filter_eq_nil_iff]
      intro t ht
      simp [hall t ht]
    rw [this, List.append_nil]
  · rw [taxonomyIds, hbase, List.map_append, List.nodup_append]
    refine ⟨hnd, ?_, ?_⟩
    · exact hcand.sublist ((List.filter_sublist cands).map (fun t => t.topic_id))
    · intro a ha hb
      rw [List.mem_map] at hb
      obtain ⟨t, ht, hta⟩ := hb
      rw [List.mem_filter] at ht
      have h2 := ht.2
      simp only [decide_eq_true_eq] at h2
      subst hta
      exact h2 ha

/-- C2 counterexample: two candidates sharing the same fresh id are both
appended (the existing-id set is computed before the loop and never updated),
so the stored ids are no longer pairwise distinct, contradicting the claim in
the case where the candidate sequence itself contains two entries with the
same `topic_id`. -/
theorem C2_counterexample :
    ¬ (taxonomyIds (add_topics_to_taxonomy 1 { app_id := "app", topics := [], last_updated := 0 }
        [{ topic_id := "slow_app", topic_name := "Slow App", category := "issue",
           variations := [], description := "", added_date := 0,
           is_seed := false, app_specific := true },
         { topic_id := "slow_app", topic_name := "App Slow", category := "issue",
           variations := [], description := "", added_date := 0,
           is_seed := false, app_specific := true }])).Nodup := by
  decide

/-- C2 witness: instantiating the amended theorem on a taxonomy holding the
id a and candidates with fresh distinct ids b, c. -/
theorem C2_addTopics_idempotent_witness :
    (taxonomyIds (add_topics_to_taxonomy 1
      { app_id := "app",
        topics := [{ topic_id := "a", topic_name := "A", category := "issue",
                     variations := [], description := "", added_date := 0,
                     is_seed := true, app_specific := false }],
        last_updated := 0 }
      [{ topic_id := "a", topic_name := "A again", category := "issue",
         variations := [], description := "", added_date := 0,
         is_seed := false, app_specific := true },
       { topic_id := "b", topic_name := "B", category := "issue",
         variations := [], description := "", added_date := 0,
         is_seed := false, app_specific := true }])).Nodup :=
  (C2_addTopics_idempotent 1
    { app_id := "app",
      topics := [{ topic_id := "a", topic_name := "A", category := "issue",
                   variations := [], description := "", added_date := 0,
                   is_seed := true, app_specific := false }],
      last_updated := 0 }
    [{ topic_id := "a", topic_name := "A again", category := "issue",
       variations := [], description := "", added_date := 0,
       is_seed := false, app_specific := true },
     { topic_id := "b", topic_name := "B", category := "issue",
       variations := [], description := "", added_date := 0,
       is_seed := false, app_specific := true }]).2.2 (by decide) (by decide)

/-- Every row returned by `filter_by_date_range` lies in the window. -/
theorem mem_filter_by_date_range (df : List Review) (s e : Nat) (r : Review)
    (h : r ∈ filter_by_date_range df s e) : s ≤ r.at_ts ∧ r.at_ts ≤ e := by
  rw [filter_by_date_range, List.mem_filter] at h
  simpa using h.2

/-- C3: for an existing non-empty store, `smart_scrape` follows the decision
table in order. Full coverage of the window by the store serves directly from
the store with no fetch call; otherwise a window end past the store maximum
issues exactly one fetch call with reference the window end and cutoff the
store maximum and returns only rows inside the window; otherwise a window
start before the store minimum issues no fetch and returns the store overlap
with the window. -/
theorem C3_smart_scrape_decision_table (fetch : Nat → Nat → List Review)
    (df : List Review) (target : Nat) (hne : df ≠ []) :
    ((minAt df ≤ target - TREND_WINDOW_DAYS ∧ target ≤ maxAt df) →
        smart_scrape fetch (some df) target =
          ⟨filter_by_date_range df (target - TREND_WINDOW_DAYS) target, some df, []⟩) ∧
    (maxAt df < target →
        (smart_scrape fetch (some df) target).fetch_calls = [(target, maxAt df)] ∧
        ∀ r ∈ (smart_scrape fetch (some df) target).result,
          target - TREND_WINDOW_DAYS ≤ r.at_ts ∧ r.at_ts ≤ target) ∧
    (target ≤ maxAt df → target - TREND_WINDOW_DAYS < minAt df →
        smart_scrape fetch (some df) target =
          ⟨filter_by_date_range df (target - TREND_WINDOW_DAYS) target, some df, []⟩) := by
  have hE : df.isEmpty = false := by
    cases df with
    | nil => exact absurd rfl hne
    | cons a l => rfl
  refine ⟨fun h => ?_, fun h => ?_, fun h1 h2 => ?_⟩
  · simp only [smart_scrape, get_trend_date_range, hE, Bool.false_eq_true, if_false]
    rw [if_pos ⟨h.1, h.2⟩]
  · have hnot : ¬ (target - TREND_WINDOW_DAYS ≥ minAt df ∧ target ≤ maxAt df) := by
      intro hc
      omega
    constructor
    · simp only [smart_scrape, get_trend_date_range, hE, Bool.false_eq_true, if_false]
      rw [if_neg hnot, if_pos h]
    · intro r hr
      simp only [smart_scrape, get_trend_date_range, hE, Bool.false_eq_true,
        if_false] at hr
      rw [if_neg hnot, if_pos h] at hr
      exact mem_filter_by_date_range _ _ _ _ hr
  · have hnot : ¬ (target - TREND_WINDOW_DAYS ≥ minAt df ∧ target ≤ maxAt df) := by
      intro hc
      omega
    have hnot2 : ¬ (maxAt df < target) := by omega
    simp only [smart_scrape, get_trend_date_range, hE, Bool.false_eq_true, if_false]
    rw [if_neg hnot, if_neg hnot2, if_pos h2]

/-- A concrete review row for witnesses and counterexamples. -/
def mkReview (id : String) (d : Nat) : Review :=
  { reviewId := id, userName := "u", score := 5, at_ts := d, content := "t",
    thumbsUpCount := 0, appVersion := none, replyContent := none, repliedAt := none }

/-- C3 witness: the three branches of the decision table on concrete stores,
including the spec scenario of a store covering days 1..30 and target day 32
with the 1-day lookback: exactly one fetch call, reference 32 and cutoff 30. -/
theorem C3_smart_scrape_witness :
    smart_scrape (fun _ _ => []) (some [mkReview "a" 30, mkReview "b" 1]) 30 =
      ⟨filter_by_date_range [mkReview "a" 30, mkReview "b" 1] 29 30,
        some [mkReview "a" 30, mkReview "b" 1], []⟩ ∧
    (smart_scrape (fun _ _ => []) (some [mkReview "a" 30, mkReview "b" 1]) 32).fetch_calls
      = [(32, 30)] ∧
    smart_scrape (fun _ _ => []) (some [mkReview "a" 30]) 30 =
      ⟨filter_by_date_range [mkReview "a" 30] 29 30, some [mkReview "a" 30], []⟩ :=
  ⟨(C3_smart_scrape_decision_table (fun _ _ => []) [mkReview "a" 30, mkReview "b" 1] 30
      (by decide)).1 (by decide),
   ((C3_smart_scrape_decision_table (fun _ _ => []) [mkReview "a" 30, mkReview "b" 1] 32
      (by decide)).2.1 (by decide)).1,
   (C3_smart_scrape_decision_table (fun _ _ => []) [mkReview "a" 30] 30
      (by decide)).2.2 (by decide) (by decide)⟩

/-- A concrete review row with chosen text, for the C4 right-bias example. -/
def mkReviewText (id text : String) : Review :=
  { reviewId := id, userName := "u", score := 5, at_ts := 0, content := text,
    thumbsUpCount := 0, appVersion := none, replyContent := none, repliedAt := none }

/-- C4: the merge concatenates both sides, deduplicates by review id keeping
the incoming copy whenever the same id appears in both (for id-unique
inputs), and sorts descending by timestamp; in particular merging a review
with id 1 and text a against one with id 1 and text b yields exactly the
review with text b. -/
theorem C4_merge_right_biased (existing incoming : List Review)
    (he : (reviewIds existing).Nodup) (hi : (reviewIds incoming).Nodup) :
    (mergeReviews existing incoming).Pairwise (fun a b => b.at_ts ≤ a.at_ts) ∧
    (∀ r, r ∈ mergeReviews existing incoming ↔
        r ∈ incoming ∨ (r ∈ existing ∧ r.reviewId ∉ reviewIds incoming)) ∧
    mergeReviews [mkReviewText "1" "a"] [mkReviewText "1" "b"] = [mkReviewText "1" "b"] := by
  refine ⟨pairwise_sortByAtDesc _, fun r => ?_, by decide⟩
  rw [mergeReviews, mem_sortByAtDesc]
  exact mem_dropDupKeepLast_append existing incoming r he hi

/-- C4 witness: the concrete right-bias example, via the theorem. -/
theorem C4_merge_right_biased_witness :
    mergeReviews [mkReviewText "1" "a"] [mkReviewText "1" "b"] = [mkReviewText "1" "b"] :=
  (C4_merge_right_biased [mkReviewText "1" "a"] [mkReviewText "1" "b"]
    (by decide) (by decide)).2.2

/-- C5: merging an id-unique store with itself yields the same review ids
with unchanged count (the id list of the merge is a permutation of the
original id list). -/
theorem C5_merge_idempotent (s : List Review) (h : (reviewIds s).Nodup) :
    List.Perm (reviewIds (mergeReviews s s)) (reviewIds s) := by
  have hcov : ∀ r ∈ s, r.reviewId ∈ reviewIds s :=
    fun r hr => List.mem_map_of_mem (fun q => q.reviewId) hr
  have h1 : dropDupKeepLast (s ++ s) = s := by
    rw [dropDupKeepLast_append_of_covered s s hcov, dropDupKeepLast_of_nodup s h]
  rw [mergeReviews, h1]
  exact (perm_sortByAtDesc s).map (fun q => q.reviewId)

/-- C5 witness: a concrete two-review store merged with itself keeps its id
list up to permutation. -/
theorem C5_merge_idempotent_witness :
    List.Perm (reviewIds (mergeReviews [mkReview "1" 1, mkReview "2" 2]
      [mkReview "1" 1, mkReview "2" 2])) (reviewIds [mkReview "1" 1, mkReview "2" 2]) :=
  C5_merge_idempotent [mkReview "1" 1, mkReview "2" 2] (by decide)

/-- An empty taxonomy, for concrete runs. -/
def taxEmpty : Taxonomy := { app_id := "app", topics := [], last_updated := 0 }

/-- Mapper lookup used in the C6 scenario: the phrase crash maps to
app&#95;crash with confidence 9/10; everything else is unmapped. -/
def c6_mappings : String → Option TopicMapping := fun s =>
  if s = "crash" then
    some { mapped_topic_id := some "app_crash", confidence := some (9/10) }
  else none

/-- Validation oracle used in the C6 scenario: the phrase login fails is
valid, with a suggested id that collides with the already-counted
app&#95;crash and differs from the slug of the phrase. -/
def c6_validate : String → Option ValidationResult := fun s =>
  if s = "login fails" then
    some { is_valid := true, suggested_topic_id := some "app_crash",
           suggested_topic_name := some "App Crash", suggested_category := some "issue",
           reasoning := "valid" }
  else none

/-- Day input for the C6 scenario: one mapped crash mention and five
unmapped login fails mentions. -/
def c6_ers : List ExtractionResult :=
  [⟨"r1", ["Crash"]⟩, ⟨"r2", ["login fails"]⟩, ⟨"r3", ["login fails"]⟩,
   ⟨"r4", ["login fails"]⟩, ⟨"r5", ["login fails"]⟩, ⟨"r6", ["login fails"]⟩]

/-- C6 counterexample: with one crash mention already counted under
app&#95;crash and the promoted phrase login fails carrying count 5, the batch
frequency under the new id is 5, not the folded 1 + 5 the claim demands, and
the phrase still appears among the unmapped topics of the detailed export
because the oracle-suggested id differs from the slug of the phrase. -/
theorem C6_counterexample :
    counterLookup (consolidate_and_discover c6_validate c6_mappings taxEmpty
        "app" 1 2 c6_ers).batch.topic_frequencies "app_crash" = some 5 ∧
    counterLookup (consolidate_and_discover c6_validate c6_mappings taxEmpty
        "app" 1 2 c6_ers).batch.topic_frequencies "app_crash" ≠ some (1 + 5) ∧
    "login fails" ∈ (consolidate_and_discover c6_validate c6_mappings taxEmpty
        "app" 1 2 c6_ers).detailed.unmapped_topics.map (fun e => e.1) := by
  refine ⟨by decide, by decide, by decide⟩

/-- C6 (amended): when a promoted phrase passes validation, the day's
topic&#95;frequencies entry under the new topic id is assigned the phrase's
accumulated count (overwriting, not folding into, any count already recorded
under that id), the review list under the new id is likewise replaced by the
phrase's unmapped review list, and the phrase is dropped from the detailed
unmapped&#95;topics only when some promoted topic's id equals
`generate_topic_id` of the phrase — with an oracle-suggested id different
from the slug, the phrase stays listed. -/
theorem C6_promotion_overwrites (validate : String → Option ValidationResult)
    (date_str : Nat) (ur : Buckets) (ps : PromotionState) (topic : String) (count : Nat)
    (hc : MIN_TOPIC_OCCURRENCES ≤ count)
    (hv : (validate_new_topic validate topic).is_valid = true) :
    (counterLookup (promoteStep validate date_str ur ps (topic, count)).topic_counts
        ((validate_new_topic validate topic).suggested_topic_id.getD (generate_topic_id topic))
      = some count) ∧
    (bucketGet (promoteStep validate date_str ur ps (topic, count)).reviews_by_topic
        ((validate_new_topic validate topic).suggested_topic_id.getD (generate_topic_id topic))
      = bucketGet ur topic) ∧
    (∀ (mappings : String → Option TopicMapping) (tax : Taxonomy) (app : String)
        (now : Nat) (ers : List ExtractionResult) (phrase : String),
      phrase ∈ (consolidate_and_discover validate mappings tax app date_str now
          ers).detailed.unmapped_topics.map (fun e => e.1) ↔
        (phrase ∈ (consolidateLoop mappings ers).unmapped_reviews.map (fun e => e.1) ∧
          ∀ t ∈ (consolidate_and_discover validate mappings tax app date_str now
              ers).new_topics_to_add,
            t.topic_id ≠ generate_topic_id phrase)) := by
  refine ⟨?_, ?_, ?_⟩
  · simp [promoteStep, hc, hv, counterLookup_counterSet_self]
  · simp [promoteStep, hc, hv, bucketGet_bucketSet_self]
  · intro mappings tax app now ers phrase
    rw [consolidate_detailed_unmapped_def, consolidate_new_topics_def, List.map_map]
    constructor
    · intro hmem
      rw [List.mem_map] at hmem
      obtain ⟨e, he, heq⟩ := hmem
      rw [List.mem_filter] at he
      have hp := he.2
      simp only [Function.comp] at heq
      refine ⟨List.mem_map.2 ⟨e, he.1, heq⟩, fun t ht hteq => ?_⟩
      rw [Bool.not_eq_eq_eq_not, Bool.not_true, List.any_eq_false] at hp
      exact absurd (by rw [beq_iff_eq, hteq, heq]) (hp t ht)
    · rintro ⟨hmem, hall⟩
      rw [List.mem_map] at hmem
      obtain ⟨e, he, heq⟩ := hmem
      refine List.mem_map.2 ⟨e, List.mem_filter.2 ⟨he, ?_⟩, by simpa [Function.comp] using heq⟩
      rw [Bool.not_eq_eq_eq_not, Bool.not_true, List.any_eq_false]
      intro t ht
      simp only [beq_iff_eq]
      rw [heq]
      exact hall t ht

/-- C6 witness: the amended theorem on the concrete C6 scenario state. -/
theorem C6_promotion_overwrites_witness :
    counterLookup (promoteStep c6_validate 1
        [("login fails", [⟨"r2", "login fails", none⟩])]
        { topic_counts := [("app_crash", 1)], reviews_by_topic := [],
          topic_id_to_name := [] }
        ("login fails", 5)).topic_counts
      ((validate_new_topic c6_validate "login fails").suggested_topic_id.getD
        (generate_topic_id "login fails")) = some 5 :=
  (C6_promotion_overwrites c6_validate 1
    [("login fails", [⟨"r2", "login fails", none⟩])]
    { topic_counts := [("app_crash", 1)], reviews_by_topic := [],
      topic_id_to_name := [] }
    "login fails" 5 (by decide) (by decide)).1

/-- C7: a lowercased unmapped phrase whose occurrence count for the day is
below the minimum-occurrence threshold (in particular, exactly the threshold
minus one) triggers no validation call and is never promoted; the threshold
is checked against the single day batch's counter only, since
`consolidate_and_discover` receives one day's extraction results. -/
theorem C7_promotion_threshold (validate : String → Option ValidationResult)
    (mappings : String → Option TopicMapping) (tax : Taxonomy) (app : String)
    (date_str now : Nat) (ers : List ExtractionResult) (p : String) (c : Nat)
    (hc : c < MIN_TOPIC_OCCURRENCES)
    (hl : counterLookup (consolidate_and_discover validate mappings tax app date_str now
        ers).unmapped_counts p = some c) :
    p ∉ (consolidate_and_discover validate mappings tax app date_str now
        ers).validation_calls ∧
    p ∉ (consolidate_and_discover validate mappings tax app date_str now
        ers).promoted_phrases := by
  rw [consolidate_unmapped_counts_def] at hl
  constructor
  · rw [consolidate_validation_calls_def, consolidatePromotion,
      foldl_promoteStep_validation_calls]
    intro hmem
    simp only [List.nil_append] at hmem
    rw [List.mem_map] at hmem
    obtain ⟨e, he, heq⟩ := hmem
    rw [List.mem_filter] at he
    have h2 : MIN_TOPIC_OCCURRENCES ≤ e.2 := by simpa using he.2
    have h3 := counterLookup_eq_of_mem _ e.1 e.2
      (nodup_counterKeys_counterOf ((consolidateLoop mappings ers).unmapped_topics.map
        strLower)) he.1
    rw [heq, hl] at h3
    have h4 := Option.some_inj.1 h3
    omega
  · rw [consolidate_promoted_phrases_def, consolidatePromotion,
      foldl_promoteStep_promoted_phrases]
    intro hmem
    simp only [List.nil_append] at hmem
    rw [List.mem_map] at hmem
    obtain ⟨e, he, heq⟩ := hmem
    rw [List.mem_filter, Bool.and_eq_true] at he
    have h2 : MIN_TOPIC_OCCURRENCES ≤ e.2 := by simpa using he.2.1
    have h3 := counterLookup_eq_of_mem _ e.1 e.2
      (nodup_counterKeys_counterOf ((consolidateLoop mappings ers).unmapped_topics.map
        strLower)) he.1
    rw [heq, hl] at h3
    have h4 := Option.some_inj.1 h3
    omega

/-- Day input for the C7 witness: four reviews mentioning the same unmapped
phrase, one below the threshold of five. -/
def c7_ers : List ExtractionResult :=
  [⟨"r1", ["slow app"]⟩, ⟨"r2", ["slow app"]⟩, ⟨"r3", ["slow app"]⟩, ⟨"r4", ["slow app"]⟩]

/-- C7 witness: with the phrase occurring exactly four times (threshold five),
no validation call is issued for it. -/
theorem C7_promotion_threshold_witness :
    "slow app" ∉ (consolidate_and_discover (fun _ => none) (fun _ => none) taxEmpty
        "app" 1 2 c7_ers).validation_calls :=
  (C7_promotion_threshold (fun _ => none) (fun _ => none) taxEmpty "app" 1 2 c7_ers
    "slow app" 4 (by decide) (by decide)).1

/-- C8 counterexample: a day with no reviews returns the zero-valued batch
but issues NO `save_batch` call (empty persistence log), while a day with one
review does persist — the claim's persisted like any other day's batch part
fails. -/
theorem C8_counterexample :
    process_single_day (fun _ => []) (fun _ => none) (fun _ => none) taxEmpty 0
        [mkReview "r1" 5] 6 "app" = (DayBatch.zero "app" 6, []) ∧
    (process_single_day (fun rs => rs.map (fun r => ⟨r.reviewId, []⟩)) (fun _ => none)
        (fun _ => none) taxEmpty 0 [mkReview "r1" 5] 5 "app").2 ≠ [] := by
  refine ⟨by decide, by decide⟩

/-- C8 (amended): for every date whose day slice of the review frame is
empty, `process_single_day` returns the explicit zero-valued batch —
total&#95;reviews 0, empty topic&#95;frequencies, empty
new&#95;topics&#95;discovered — but does NOT persist it: the empty-day branch
short-circuits before any `save_batch` call, so only days with at least one
review are persisted. -/
theorem C8_empty_day_not_persisted (extract : List Review → List ExtractionResult)
    (mappings : String → Option TopicMapping) (validate : String → Option ValidationResult)
    (tax : Taxonomy) (now : Nat) (df : List Review) (d : Nat) (app : String)
    (h : get_reviews_for_date df d = []) :
    process_single_day extract mappings validate tax now df d app =
      (DayBatch.zero app d, []) ∧
    (process_single_day extract mappings validate tax now df d app).1.total_reviews = 0 ∧
    (process_single_day extract mappings validate tax now df d app).1.topic_frequencies = [] ∧
    (process_single_day extract mappings validate tax now df d app).1.new_topics_discovered = [] := by
  have h1 : process_single_day extract mappings validate tax now df d app =
      (DayBatch.zero app d, []) := by
    simp [process_single_day, h]
  refine ⟨h1, ?_, ?_, ?_⟩ <;> rw [h1] <;> rfl

/-- C8 witness: the amended theorem on a concrete frame with no review on
the queried date. -/
theorem C8_empty_day_witness :
    process_single_day (fun _ => []) (fun _ => none) (fun _ => none) taxEmpty 0
      [mkReview "r1" 5] 7 "app" = (DayBatch.zero "app" 7, []) :=
  (C8_empty_day_not_persisted (fun _ => []) (fun _ => none) (fun _ => none) taxEmpty 0
    [mkReview "r1" 5] 7 "app" (by decide)).1

/-- C9: the per-day loop of `orchestrate_analysis` (main.py lines 164-167)
wraps `process_single_day` in no try/except, so a failure while processing
one day aborts the processing of every later day. Evaluating the modelled
loop on the two-day window of target 2 with day 1 raising: the loop stops
with the escaped exception and day 2 is never processed, contradicting the
fault-isolation requirement of the spec. -/
theorem C9_day_loop_aborts :
    orchestrate_day_loop
        (fun d => if d = 1 then Except.error "groq failure" else Except.ok ()) 2 =
      ([], some "groq failure") ∧
    2 ∉ (orchestrate_day_loop
        (fun d => if d = 1 then Except.error "groq failure" else Except.ok ()) 2).1 := by
  refine ⟨by decide, by decide⟩

/-- C10: in every batch emitted by `consolidate_and_discover`,
unmapped&#95;count equals the number of distinct lowercased unmapped phrases
whose occurrence count within the day batch is strictly below the threshold;
and a promotion step whose validation verdict is invalid leaves the topic
counts, the discovered-topic list and the promoted phrases untouched — so an
at-or-above-threshold phrase with a rejected validation contributes neither
to unmapped&#95;count (its count is not below the threshold) nor to
topic&#95;frequencies. -/
theorem C10_unmapped_count (validate : String → Option ValidationResult)
    (mappings : String → Option TopicMapping) (tax : Taxonomy) (app : String)
    (date_str now : Nat) (ers : List ExtractionResult) :
    ((consolidate_and_discover validate mappings tax app date_str now
        ers).batch.unmapped_count =
      (((consolidateLoop mappings ers).unmapped_topics.map strLower).dedup.filter
        (fun p => decide (((consolidateLoop mappings ers).unmapped_topics.map strLower).count p
          < MIN_TOPIC_OCCURRENCES))).length) ∧
    (∀ (ur : Buckets) (ps : PromotionState) (p : String) (c : Nat),
      (validate_new_topic validate p).is_valid = false →
        (promoteStep validate date_str ur ps (p, c)).topic_counts = ps.topic_counts ∧
        (promoteStep validate date_str ur ps (p, c)).new_topics_to_add =
          ps.new_topics_to_add ∧
        (promoteStep validate date_str ur ps (p, c)).promoted_phrases =
          ps.promoted_phrases) := by
  constructor
  · rw [consolidate_unmapped_count_def]
    rw [← List.countP_eq_length_filter, ← List.countP_eq_length_filter]
    have hstep1 : ((counterOf ((consolidateLoop mappings ers).unmapped_topics.map
        strLower)).countP (fun e => decide (e.2 < MIN_TOPIC_OCCURRENCES))) =
        ((counterOf ((consolidateLoop mappings ers).unmapped_topics.map
          strLower)).countP (fun e =>
            decide (((consolidateLoop mappings ers).unmapped_topics.map strLower).count e.1
              < MIN_TOPIC_OCCURRENCES))) := by
      apply List.countP_congr
      intro e he
      have hv := counterOf_value_eq_count _ e.1 e.2 he
      simp [hv]
    rw [hstep1]
    have hstep2 : ((counterOf ((consolidateLoop mappings ers).unmapped_topics.map
        strLower)).countP (fun e =>
          decide (((consolidateLoop mappings ers).unmapped_topics.map strLower).count e.1
            < MIN_TOPIC_OCCURRENCES))) =
        ((counterKeys (counterOf ((consolidateLoop mappings ers).unmapped_topics.map
          strLower))).countP (fun p =>
            decide (((consolidateLoop mappings ers).unmapped_topics.map strLower).count p
              < MIN_TOPIC_OCCURRENCES))) := by
      rw [counterKeys, List.countP_map]
      rfl
    rw [hstep2]
    have hperm : List.Perm
        (counterKeys (counterOf ((consolidateLoop mappings ers).unmapped_topics.map
          strLower)))
        (((consolidateLoop mappings ers).unmapped_topics.map strLower).dedup) := by
      rw [List.perm_ext_iff_of_nodup (nodup_counterKeys_counterOf _) (List.nodup_dedup _)]
      intro a
      rw [mem_counterKeys_counterOf, List.mem_dedup]
    exact hperm.countP_eq _
  · intro ur ps p c hv
    refine ⟨?_, ?_, ?_⟩ <;> by_cases h : MIN_TOPIC_OCCURRENCES ≤ c <;>
      simp [promoteStep, h, hv]

/-- C10 witness: a rejected validation on an above-threshold phrase leaves
the topic counts untouched. -/
theorem C10_unmapped_count_witness :
    (promoteStep (fun _ => none) 1 []
      { topic_counts := [("a", 2)], reviews_by_topic := [], topic_id_to_name := [] }
      ("bad phrase", 6)).topic_counts = [("a", 2)] :=
  ((C10_unmapped_count (fun _ => none) (fun _ => none) taxEmpty "app" 1 2 []).2
    [] { topic_counts := [("a", 2)], reviews_by_topic := [], topic_id_to_name := [] }
    "bad phrase" 6 (by decide)).1

end AppReview
